import Mathlib

/-!
# Prayer Time Notifier: the background service worker (`src/Background.js`)

A shallow embedding of the scheduling engine of the extension and of the
handlers around it, followed by theorems about it.

Conventions of the embedding.

* A JavaScript string is a Lean `String`; the string methods the source calls
  (`split`, `startsWith`, `replace`) are defined on its list of characters.
* A number that `Number(string)` yields is a `JsNumber`: `NaN`, an infinity or
  an exact decimal value.  The time value of a `Date` is a `TimeValue`, an
  `Option Int` of milliseconds since the epoch whose `none` is `NaN`; values
  beyond the range of `Date` are clipped to `NaN` as `TimeClip` does.
* The local time zone is a parameter `tz` of everything that builds a date: it
  gives the offset in effect at a UTC instant and the offset by which a local
  date-time is read, so zones with daylight saving are covered.
* The clock is read several times in one handler (`Date.now()`, `new Date()`);
  one run of a handler is modelled at one clock value `now`.
* The platform facilities (`chrome.alarms`, `chrome.storage.sync`,
  `chrome.notifications`, `fetch`) are explicit state: an alarm table, a store,
  the list of displayed notifications and the list of requests sent.  Calls to
  them are taken to succeed; the exceptions that are modelled are the ones the
  JavaScript of the repository raises itself (`throw new Error`, and the
  `TypeError` of a property access on `undefined`/`null` or of calling a method
  that a value does not have).
* `async`/`await` is sequential composition: every awaited step finishes before
  the next starts, and a handler that starts a refresh cycle is modelled with
  the cycle run to completion.
-/

namespace PrayerNotifier

/-! ## JavaScript values and strings -/

/-- The time value of a `Date`, in milliseconds since the epoch, or `NaN`
(`none`) for an invalid date. -/
abbrev TimeValue := Option Int

/-- The values a property of a parsed JSON object can have, plus `undefined`
for a property that is absent.  Arrays and nested objects are the single
constructor `object`, with the text that a template literal renders for them
(`[object Object]` for a plain object, the joined elements for an array): the
code only tests them for truthiness, tries to call `split` on them and renders
them in a message.  Numbers are the integral ones. -/
inductive JsVal where
  | undefined
  | null
  | bool (b : Bool)
  | num (n : Int)
  | str (s : String)
  | object (text : String)
  deriving DecidableEq, Repr

/-- Truthiness (`ToBoolean`) of a value: what `!timeStr` tests. -/
def JsVal.truthy : JsVal → Bool
  | .undefined => false
  | .null => false
  | .bool b => b
  | .num n => n != 0
  | .str s => s != ""
  | .object _ => true

/-- The text that a template literal renders for a value (`ToString`). -/
def JsVal.render : JsVal → String
  | .undefined => "undefined"
  | .null => "null"
  | .bool b => if b then "true" else "false"
  | .num n => toString n
  | .str s => s
  | .object text => text

/-- `String.prototype.split` with a one-character separator, on characters:
the list of segments between the occurrences of `sep` (never empty). -/
def splitChars (sep : Char) : List Char → List (List Char)
  | [] => [[]]
  | c :: cs =>
    if c = sep then [] :: splitChars sep cs
    else
      match splitChars sep cs with
      | [] => [[c]]
      | seg :: segs => (c :: seg) :: segs

/-- `s.split(sep)` for a one-character separator. -/
def jsSplit (s : String) (sep : Char) : List String :=
  (splitChars sep s.data).map String.mk

/-- `xs.startsWith(pat)` on characters. -/
def startsWithChars : List Char → List Char → Bool
  | [], _ => true
  | _ :: _, [] => false
  | p :: ps, c :: cs => p == c && startsWithChars ps cs

/-- `s.startsWith(pat)`. -/
def jsStartsWith (s pat : String) : Bool :=
  startsWithChars pat.data s.data

/-- `String.prototype.replace` with a string pattern, on characters: the first
occurrence of `pat` is replaced by `rep`; no occurrence leaves the text as it
is. -/
def replaceFirstChars (pat rep : List Char) : List Char → List Char
  | [] => if pat = [] then rep else []
  | c :: cs =>
    if startsWithChars pat (c :: cs) then rep ++ (c :: cs).drop pat.length
    else c :: replaceFirstChars pat rep cs

/-- `s.replace(pat, rep)` for a string pattern `pat`. -/
def jsReplace (s pat rep : String) : String :=
  String.mk (replaceFirstChars pat.data rep.data s.data)

/-- The characters `StrWhiteSpaceChar` of the grammar of `Number(string)`:
white space and line terminators. -/
def isStrWhiteSpace (c : Char) : Bool :=
  c.val = 0x09 || c.val = 0x0A || c.val = 0x0B || c.val = 0x0C || c.val = 0x0D ||
  c.val = 0x20 || c.val = 0xA0 || c.val = 0x1680 ||
  (0x2000 ≤ c.val && c.val ≤ 0x200A) ||
  c.val = 0x2028 || c.val = 0x2029 || c.val = 0x202F || c.val = 0x205F ||
  c.val = 0x3000 || c.val = 0xFEFF

/-- Whether `c` is one of the decimal digits `0` to `9`. -/
def isDecimalDigit (c : Char) : Bool :=
  0x30 ≤ c.val && c.val ≤ 0x39

/-- The value of a list of decimal digits, most significant first. -/
def digitsValue (cs : List Char) : Nat :=
  cs.foldl (fun acc c => 10 * acc + (c.toNat - 48)) 0

/-- Leading and trailing `StrWhiteSpaceChar`s removed. -/
def trimStrWhiteSpace (cs : List Char) : List Char :=
  ((cs.dropWhile isStrWhiteSpace).reverse.dropWhile isStrWhiteSpace).reverse

/-- A JavaScript number as `Number(string)` yields one: `NaN`, an infinity,
or the finite value `mantissa * 10 ^ exp10`.  The value of a literal is kept
exactly; the rounding of `Number` to the nearest double, which changes the
value of a literal of more than 15 significant digits only, is not modelled. -/
inductive JsNumber where
  | nan
  | infinite (negative : Bool)
  | finite (mantissa : Int) (exp10 : Int)
  deriving DecidableEq, Repr

/-- Unary minus. -/
def JsNumber.neg : JsNumber → JsNumber
  | .nan => .nan
  | .infinite b => .infinite (!b)
  | .finite m e => .finite (-m) e

/-- The integer part, rounded toward zero, of `m * 10 ^ e`. -/
def truncDecimal (m e : Int) : Int :=
  if 0 ≤ e then m * 10 ^ e.toNat
  else if 0 ≤ m then m / 10 ^ (-e).toNat
  else -((-m) / 10 ^ (-e).toNat)

/-- `ToIntegerOrInfinity` of a number that is finite; `none` when the number is
`NaN` or an infinity, which `MakeTime` turns into `NaN`. -/
def JsNumber.toInteger : JsNumber → Option Int
  | .finite m e => some (truncDecimal m e)
  | _ => none

/-- The value of the digit `c` in a radix up to 16, if it is a digit. -/
def digitInRadix (radix : Nat) (c : Char) : Option Nat :=
  let v : Option Nat :=
    if 0x30 ≤ c.val && c.val ≤ 0x39 then some (c.toNat - 0x30)
    else if 0x61 ≤ c.val && c.val ≤ 0x66 then some (c.toNat - 0x61 + 10)
    else if 0x41 ≤ c.val && c.val ≤ 0x46 then some (c.toNat - 0x41 + 10)
    else none
  match v with
  | some d => if d < radix then some d else none
  | none => none

/-- The value of the digits `cs` in the given radix after the digits already
read, whose value is `acc`; `none` when a character is not a digit of the
radix. -/
def radixValueFrom (radix : Nat) (acc : Nat) : List Char → Option Nat
  | [] => some acc
  | c :: cs =>
    match digitInRadix radix c with
    | some d => radixValueFrom radix (radix * acc + d) cs
    | none => none

/-- A `NonDecimalIntegerLiteral`: `0x`, `0o` or `0b` (in either case) followed
by at least one digit of the radix. -/
def parseNonDecimal (cs : List Char) : Option Nat :=
  match cs with
  | '0' :: x :: d :: ds =>
    if x = 'x' ∨ x = 'X' then radixValueFrom 16 0 (d :: ds)
    else if x = 'o' ∨ x = 'O' then radixValueFrom 8 0 (d :: ds)
    else if x = 'b' ∨ x = 'B' then radixValueFrom 2 0 (d :: ds)
    else none
  | _ => none

/-- The digits of an exponent: at least one decimal digit and nothing else. -/
def parseExponentDigits (ds : List Char) : Option Nat :=
  if ds ≠ [] ∧ ds.all isDecimalDigit = true then some (digitsValue ds) else none

/-- What follows the mantissa of a decimal literal: nothing (exponent 0), or an
`ExponentPart`, `e` or `E`, an optional sign and digits. -/
def parseExponent (cs : List Char) : Option Int :=
  match cs with
  | [] => some 0
  | c :: rest =>
    if c = 'e' ∨ c = 'E' then
      match rest with
      | '+' :: ds => (parseExponentDigits ds).map (fun n => (n : Int))
      | '-' :: ds => (parseExponentDigits ds).map (fun n => -(n : Int))
      | ds => (parseExponentDigits ds).map (fun n => (n : Int))
    else none

/-- A `StrUnsignedDecimalLiteral`: `Infinity`, or digits with an optional
fraction and an optional exponent, at least one digit before or after the
point. -/
def parseUnsignedDecimal (cs : List Char) : JsNumber :=
  if cs = "Infinity".data then .infinite false
  else
    let ip := cs.takeWhile isDecimalDigit
    let r1 := cs.dropWhile isDecimalDigit
    let fp := match r1 with
      | '.' :: r => r.takeWhile isDecimalDigit
      | _ => []
    let r2 := match r1 with
      | '.' :: r => r.dropWhile isDecimalDigit
      | _ => r1
    if ip = [] ∧ fp = [] then .nan
    else
      match parseExponent r2 with
      | none => .nan
      | some e => .finite (digitsValue (ip ++ fp) : Int) (e - (fp.length : Int))

/-- `Number(s)` for a string `s` (`StringToNumber`): white space is trimmed;
the empty text is `0`; a radix-prefixed integer, or a decimal literal with an
optional sign, has its value; any other text is `NaN`. -/
def jsNumber (s : String) : JsNumber :=
  let cs := trimStrWhiteSpace s.data
  if cs = [] then .finite 0 0
  else
    match parseNonDecimal cs with
    | some n => .finite (n : Int) 0
    | none =>
      match cs with
      | '+' :: r => parseUnsignedDecimal r
      | '-' :: r => (parseUnsignedDecimal r).neg
      | _ => parseUnsignedDecimal cs

/-! ## Dates -/

def msPerMinute : Int := 60000
def msPerHour : Int := 3600000
def msPerDay : Int := 86400000

/-- The largest time value of a `Date`, in either direction. -/
def maxTimeValue : Int := 8640000000000000

/-- The local time zone: the offset of local time from UTC, in milliseconds,
in effect at a UTC instant (`LocalTZA(t, true)`) and the offset by which a
local date-time is read (`LocalTZA(t, false)`; at a daylight-saving change a
skipped or repeated local time is read with the offset before the change). -/
structure TimeZone where
  offsetAtUTC : Int → Int
  offsetAtLocal : Int → Int

/-- `LocalTime(t)`. -/
def LocalTime (tz : TimeZone) (t : Int) : Int := t + tz.offsetAtUTC t

/-- `UTC(t)`. -/
def UTC (tz : TimeZone) (t : Int) : Int := t - tz.offsetAtLocal t

/-- `Day(t)`: the day number of a time value. -/
def Day (t : Int) : Int := t / msPerDay

/-- `HourFromTime(t)`. -/
def HourFromTime (t : Int) : Int := (t / msPerHour) % 24

/-- `MinFromTime(t)`. -/
def MinFromTime (t : Int) : Int := (t / msPerMinute) % 60

/-- `SecFromTime(t)`. -/
def SecFromTime (t : Int) : Int := (t / 1000) % 60

/-- `msFromTime(t)`. -/
def msFromTime (t : Int) : Int := t % 1000

/-- `MakeTime(hour, min, sec, ms)` for the seconds and milliseconds given as
integers: `NaN` when the hour or the minute is not finite. -/
def MakeTime (hour min : JsNumber) (sec ms : Int) : TimeValue :=
  match hour.toInteger, min.toInteger with
  | some h, some m => some (h * msPerHour + m * msPerMinute + sec * 1000 + ms)
  | _, _ => none

/-- `MakeDate(day, time)`. -/
def MakeDate (day : Int) (time : TimeValue) : TimeValue :=
  time.map (fun tv => day * msPerDay + tv)

/-- `TimeClip(time)`: `NaN` beyond the range of `Date`. -/
def TimeClip (time : Int) : TimeValue :=
  if -maxTimeValue ≤ time ∧ time ≤ maxTimeValue then some time else none

/-- `d.setHours(hours, minutes, 0, 0)` on a date whose time value is `t`: the
new time value,
`TimeClip(UTC(MakeDate(Day(LocalTime(t)), MakeTime(hours, minutes, 0, 0))))`. -/
def setHours (tz : TimeZone) (t : Int) (hours minutes : JsNumber) : TimeValue :=
  match MakeDate (Day (LocalTime tz t)) (MakeTime hours minutes 0 0) with
  | some date => TimeClip (UTC tz date)
  | none => none

/-- `parseTimeToday(timeStr)` of `Background.js`, run in the zone `tz` when the
clock shows `now`: the time value (`getTime()`) of the date it returns.  A
component that the destructuring leaves `undefined` is `NaN` for `setHours`.

    const clean = timeStr.split(" ")[0];
    const [hours, minutes] = clean.split(":").map(Number);
    const d = new Date();
    d.setHours(hours, minutes, 0, 0);
    return d;
-/
def parseTimeToday (tz : TimeZone) (now : Int) (timeStr : String) : TimeValue :=
  let clean := (jsSplit timeStr ' ').headD ""
  let parts := (jsSplit clean ':').map jsNumber
  let hours : JsNumber := (parts.get? 0).getD .nan
  let minutes : JsNumber := (parts.get? 1).getD .nan
  setHours tz now hours minutes

/-! ## The alarm table (`chrome.alarms`) -/

/-- An entry of the alarm table: the name of the alarm, the instant of its
next fire, and its period in minutes when it is recurring. -/
structure Alarm where
  name : String
  scheduledTime : TimeValue
  periodInMinutes : Option Nat
  deriving DecidableEq, Repr

/-- The argument `alarmInfo` of `chrome.alarms.create`. -/
inductive AlarmInfo where
  | fireAt (when : TimeValue)
  | every (delayInMinutes periodInMinutes : Nat)
  deriving DecidableEq, Repr

/-- The table of the alarms that are armed. -/
abbrev AlarmTable := List Alarm

/-- `chrome.alarms.clearAll()`. -/
def alarmsClearAll (_ : AlarmTable) : AlarmTable := []

/-- `chrome.alarms.create(name, alarmInfo)` at the instant `now`: an alarm of
the same name is replaced.  With `when` the alarm fires once at that instant;
with `delayInMinutes` and `periodInMinutes` it first fires `delayInMinutes`
after `now` and then every `periodInMinutes`. -/
def alarmsCreate (now : Int) (name : String) (info : AlarmInfo) (tbl : AlarmTable) :
    AlarmTable :=
  let kept := tbl.filter (fun a => a.name != name)
  match info with
  | .fireAt w => kept ++ [{ name := name, scheduledTime := w, periodInMinutes := none }]
  | .every d p =>
    kept ++ [{ name := name, scheduledTime := some (now + (d : Int) * msPerMinute),
               periodInMinutes := some p }]

/-! ## Timings and the scheduling engine -/

/-- The constant `PRAYER_NAMES`: its own properties, in the order of the
object literal (the order of `Object.entries`). -/
def PRAYER_NAMES : List (String × String) :=
  [("Fajr", "الفجر"), ("Dhuhr", "الظهر"), ("Asr", "العصر"),
   ("Maghrib", "المغرب"), ("Isha", "العشاء")]

/-- The value `json.data.timings` that `fetchPrayerTimes` returns and
`schedulePrayerAlarms` receives: `undefined` or `null` (`nullish`), or an
object given by its own properties (the first pair of a key counts).  Any
other JSON value (a number, a string, an array) has none of the five prayer
keys and behaves as the object without properties. -/
inductive Timings where
  | nullish
  | obj (props : List (String × JsVal))
  deriving DecidableEq, Repr

/-- An exception raised while the code runs. -/
inductive JsError where
  | error (message : String)
  | typeError
  | syntaxError
  | networkError
  deriving DecidableEq, Repr

/-- The property access `timings[prayer]`: `none` when it throws a `TypeError`
(`timings` is `undefined` or `null`), else the value, `undefined` for an
absent property. -/
def Timings.get (timings : Timings) (prayer : String) : Option JsVal :=
  match timings with
  | .nullish => none
  | .obj props => some ((props.lookup prayer).getD .undefined)

/-- `a <= b` for a computed number `a` and an instant `b`: false when `a` is
`NaN`. -/
def jsLe (a : TimeValue) (b : Int) : Bool :=
  match a with
  | some x => decide (x ≤ b)
  | none => false

/-- The `for` loop of `schedulePrayerAlarms` over the entries `entries` of
`PRAYER_NAMES` that are still to be visited: the alarm table it leaves, and
the exception that ended it if one did. -/
def scheduleLoop (tz : TimeZone) (timings : Timings) (now : Int) :
    List (String × String) → AlarmTable → AlarmTable × Option JsError
  | [], tbl => (tbl, none)
  | (prayer, _) :: rest, tbl =>
    match timings.get prayer with
    | none => (tbl, some .typeError)
    | some timeStr =>
      if !timeStr.truthy then scheduleLoop tz timings now rest tbl
      else
        match timeStr with
        | .str s =>
          let prayerMs := parseTimeToday tz now s
          if jsLe prayerMs now then scheduleLoop tz timings now rest tbl
          else
            scheduleLoop tz timings now rest
              (alarmsCreate now ("prayer_" ++ prayer) (.fireAt prayerMs) tbl)
        | _ => (tbl, some .typeError)

/-- `schedulePrayerAlarms(timings)` of `Background.js`, run in the zone `tz` at
the instant `now` on the alarm table `tbl`: the table it leaves, and the exception it
rejects with if it does.

    await chrome.alarms.clearAll();
    const now = Date.now();
    for (const [prayer, arabicName] of Object.entries(PRAYER_NAMES)) { ... }
    await chrome.alarms.create("dailyUpdate",
      { delayInMinutes: 1440, periodInMinutes: 1440 });
-/
def schedulePrayerAlarms (tz : TimeZone) (timings : Timings) (now : Int) (tbl : AlarmTable) :
    AlarmTable × Option JsError :=
  match scheduleLoop tz timings now PRAYER_NAMES (alarmsClearAll tbl) with
  | (tbl1, some e) => (tbl1, some e)
  | (tbl1, none) => (alarmsCreate now "dailyUpdate" (.every 1440 1440) tbl1, none)

/-! ## The time-table fetcher -/

/-- What `await response.json()` gives for the body of a response: a rejection
(`notJson`: the body is not JSON text), the value `null`, or any other JSON
value, given by what the code reads from it: the properties `code` and
`status` (`undefined` when absent) and the property `data`, which is `none`
when it is `undefined` or `null` and else holds its property `timings`.  A
JSON value that is not an object (a number, a string, an array) has none of
the properties. -/
inductive ApiBody where
  | notJson
  | null
  | value (code : JsVal) (status : JsVal) (data : Option Timings)
  deriving DecidableEq, Repr

/-- What `await fetch(url)` gives: a rejection (the request did not complete),
or a response with its HTTP status and body. -/
inductive FetchOutcome where
  | rejected
  | response (status : Nat) (body : ApiBody)
  deriving DecidableEq, Repr

/-- `response.ok`: the HTTP status is in the range 200 to 299. -/
def httpOk (status : Nat) : Bool :=
  decide (200 ≤ status) && decide (status ≤ 299)

/-- The message of the error thrown for a response that is not `ok`. -/
def transportMessage (status : Nat) : String :=
  "API error: " ++ toString status

/-- The message of the error thrown for an embedded code other than 200. -/
def applicationMessage (code status : JsVal) : String :=
  "API returned code " ++ code.render ++ ": " ++ status.render

/-- `fetchPrayerTimes(city, country)` of `Background.js`, given what the one
`fetch` it performs returns.

    const response = await fetch(url);
    if (!response.ok) throw new Error("API error: " + response.status);
    const json = await response.json();
    if (json.code !== 200)
      throw new Error("API returned code " + json.code + ": " + json.status);
    const timings = json.data.timings;
    return timings;
-/
def fetchPrayerTimes (net : FetchOutcome) : Except JsError Timings :=
  match net with
  | .rejected => .error .networkError
  | .response status body =>
    if !httpOk status then .error (.error (transportMessage status))
    else
      match body with
      | .notJson => .error .syntaxError
      | .null => .error .typeError
      | .value code statusText data =>
        if code != .num 200 then .error (.error (applicationMessage code statusText))
        else
          match data with
          | none => .error .typeError
          | some timings => .ok timings

/-! ## The store, the world and the refresh cycle -/

/-- The keys of `chrome.storage.sync` that the service worker reads or
writes.  `lastUpdated` is kept as the instant whose ISO text is stored. -/
structure Store where
  city : Option String
  country : Option String
  timings : Option Timings
  lastUpdated : Option Int
  deriving DecidableEq, Repr

/-- A notification handed to `chrome.notifications.create`. -/
structure Notification where
  id : String
  title : String
  message : String
  deriving DecidableEq, Repr

/-- Everything the service worker acts on: the alarm table, the store, the
notifications displayed so far and the requests sent so far (the city and
country of each). -/
structure World where
  alarms : AlarmTable
  store : Store
  notifications : List Notification
  requests : List (String × String)
  deriving DecidableEq, Repr

/-- How a run of `refreshPrayerTimes` ended: on the early `return` for a
missing city, after the `try` block ran through, or in the `catch` clause with
the exception caught there. -/
inductive RefreshResult where
  | noCity
  | refreshed
  | caught (e : JsError)
  deriving DecidableEq, Repr

/-- A stored string seen through `x || ...`: `none` when it is falsy, that is,
absent or the empty string. -/
def truthyString (x : Option String) : Option String :=
  match x with
  | some s => if s = "" then none else some s
  | none => none

/-- `refreshPrayerTimes()` of `Background.js`, run in the zone `tz` at the
instant `now`; `net` is what `fetch` returns if the cycle calls it.

    const data = await chrome.storage.sync.get(["city", "country"]);
    const city = data.city || null;
    const country = data.country || "SA";
    if (!city) return;
    try {
      const timings = await fetchPrayerTimes(city, country);
      await schedulePrayerAlarms(timings);
      await chrome.storage.sync.set({ lastUpdated: ..., timings });
    } catch (err) { console.error(...); }
-/
def refreshPrayerTimes (tz : TimeZone) (now : Int) (net : FetchOutcome) (w : World) :
    World × RefreshResult :=
  match truthyString w.store.city with
  | none => (w, .noCity)
  | some city =>
    let country := (truthyString w.store.country).getD "SA"
    let w1 : World := { w with requests := w.requests ++ [(city, country)] }
    match fetchPrayerTimes net with
    | .error e => (w1, .caught e)
    | .ok timings =>
      match schedulePrayerAlarms tz timings now w1.alarms with
      | (tbl, some e) => ({ w1 with alarms := tbl }, .caught e)
      | (tbl, none) =>
        ({ w1 with
            alarms := tbl
            store := { w1.store with lastUpdated := some now, timings := some timings } },
         .refreshed)

/-! ## Notifications and the listeners -/

/-- The names of the properties that every object literal inherits from
`Object.prototype`. -/
def objectPrototypeKeys : List String :=
  ["constructor", "__defineGetter__", "__defineSetter__", "hasOwnProperty",
   "__lookupGetter__", "__lookupSetter__", "isPrototypeOf", "propertyIsEnumerable",
   "toString", "valueOf", "__proto__", "toLocaleString"]

/-- The text that a template literal renders for the inherited property `key`:
the source text of a built-in function, or `[object Object]` for the prototype
object itself. -/
def renderInherited (key : String) : String :=
  if key = "__proto__" then "[object Object]"
  else if key = "constructor" then "function Object() \x7b [native code] \x7d"
  else "function " ++ key ++ "() \x7b [native code] \x7d"

/-- The property access `PRAYER_NAMES[prayerKey]` as `showPrayerNotification`
uses it: `none` when the value is falsy (no such property), else the text that
the value renders to in a template literal.  An own property is one of the
five labels; a property inherited from `Object.prototype` is a function or an
object, which is truthy. -/
def prayerNamesGet (prayerKey : String) : Option String :=
  match PRAYER_NAMES.lookup prayerKey with
  | some arabicName => if arabicName = "" then none else some arabicName
  | none =>
    if objectPrototypeKeys.contains prayerKey then some (renderInherited prayerKey)
    else none

/-- `showPrayerNotification(prayerKey)` of `Background.js` at the instant
`now`.

    const arabicName = PRAYER_NAMES[prayerKey];
    if (!arabicName) return;
    chrome.notifications.create("notif_" + prayerKey + "_" + Date.now(), ...);
-/
def showPrayerNotification (now : Int) (prayerKey : String) (w : World) : World :=
  match prayerNamesGet prayerKey with
  | none => w
  | some arabicName =>
    { w with
        notifications := w.notifications ++
          [{ id := "notif_" ++ prayerKey ++ "_" ++ toString now
             title := "🕌 وقت صلاة " ++ arabicName
             message := "حان الآن موعد صلاة " ++ arabicName }] }

/-- The listener of `chrome.alarms.onAlarm`, called with an alarm of name
`name` at the instant `now`.

    if (alarm.name === "dailyUpdate") { refreshPrayerTimes(); return; }
    if (alarm.name.startsWith("prayer_")) {
      const prayerKey = alarm.name.replace("prayer_", "");
      showPrayerNotification(prayerKey);
    }
-/
def onAlarm (tz : TimeZone) (now : Int) (net : FetchOutcome) (name : String) (w : World) :
    World :=
  if name = "dailyUpdate" then (refreshPrayerTimes tz now net w).1
  else if jsStartsWith name "prayer_" then
    showPrayerNotification now (jsReplace name "prayer_" "") w
  else w

/-- A message received by the listener of `chrome.runtime.onMessage`.  A field
of `citySelected` that is `undefined` is `none`. -/
inductive Message where
  | citySelected (city country : Option String)
  | refreshNow
  | other (action : String)
  deriving DecidableEq, Repr

/-- The object passed to `sendResponse`. -/
structure Response where
  success : Bool
  deriving DecidableEq, Repr

/-- The call of `chrome.storage.sync.set` with `city` and `country`: a property
whose value is `undefined` is not written. -/
def storeSetCity (city country : Option String) (st : Store) : Store :=
  { st with
      city := match city with | some c => some c | none => st.city
      country := match country with | some c => some c | none => st.country }

/-- The listener of `chrome.runtime.onMessage` at the instant `now`: the world
it leaves and the argument of `sendResponse`, if it is called.

    if (message.action === "citySelected") {
      chrome.storage.sync.set({ city, country }, async () => {
        await refreshPrayerTimes();
        sendResponse({ success: true });
      });
      return true;
    }
    if (message.action === "refreshNow") {
      refreshPrayerTimes().then(() => sendResponse({ success: true }));
      return true;
    }
-/
def onMessage (tz : TimeZone) (now : Int) (net : FetchOutcome) (message : Message)
    (w : World) : World × Option Response :=
  match message with
  | .citySelected city country =>
    let w1 : World := { w with store := storeSetCity city country w.store }
    ((refreshPrayerTimes tz now net w1).1, some { success := true })
  | .refreshNow => ((refreshPrayerTimes tz now net w).1, some { success := true })
  | .other _ => (w, none)

/-! ## The time-of-day texts of a snapshot -/

/-- The two-digit text of a number below 100. -/
def pad2 (n : Nat) : String :=
  String.mk [Char.ofNat (48 + n / 10), Char.ofNat (48 + n % 10)]

/-- The text `HH:MM` of hour `h` and minute `m`. -/
def hhmm (h m : Nat) : String :=
  pad2 h ++ ":" ++ pad2 m

/-- A time of day of a snapshot: hour, minute, and the annotation that follows
them after a space, if any. -/
structure TimeOfDay where
  hour : Nat
  minute : Nat
  suffix : Option String
  deriving DecidableEq, Repr

/-- The text of a time of day: `HH:MM`, or `HH:MM`, a space and the
annotation. -/
def TimeOfDay.render (t : TimeOfDay) : String :=
  match t.suffix with
  | none => hhmm t.hour t.minute
  | some sfx => hhmm t.hour t.minute ++ " " ++ sfx

/-- The local date-time of hour `h`, minute `m`, second 0, millisecond 0 on the
local day of `now`. -/
def localToday (tz : TimeZone) (now : Int) (h m : Nat) : Int :=
  Day (LocalTime tz now) * msPerDay + (h : Int) * msPerHour + (m : Int) * msPerMinute

/-- The instant of hour `h`, minute `m` of local time on the local day of
`now`. -/
def instantToday (tz : TimeZone) (now : Int) (h m : Nat) : Int :=
  UTC tz (localToday tz now h m)

/-- Whether an instant is within the range of `Date`. -/
def isTimeValue (t : Int) : Bool :=
  decide (-maxTimeValue ≤ t) && decide (t ≤ maxTimeValue)

/-- The zone of UTC itself. -/
def utcZone : TimeZone :=
  { offsetAtUTC := fun _ => 0, offsetAtLocal := fun _ => 0 }

/-- The zone of New York around the start of daylight saving on 9 March 2025:
five hours behind UTC before 07:00 UTC of that day and four hours behind from
then on; a local time before 03:00 of that day is read with the offset before
the change. -/
def newYorkSpring2025 : TimeZone :=
  { offsetAtUTC := fun t => if t < 1741503600000 then -18000000 else -14400000
    offsetAtLocal := fun t => if t < 1741489200000 then -18000000 else -14400000 }

/-- The five canonical keys, in the order of `PRAYER_NAMES`. -/
def canonicalKeys : List String :=
  PRAYER_NAMES.map Prod.fst

/-- The one-shot alarm that the snapshot `snap` calls for at `now` for the key
`K`: none when the key is absent or its instant is not after `now`. -/
def expectedOneShot (tz : TimeZone) (snap : String → Option TimeOfDay) (now : Int)
    (K : String) : Option Alarm :=
  match snap K with
  | none => none
  | some t =>
    if now < instantToday tz now t.hour t.minute then
      some { name := "prayer_" ++ K
             scheduledTime := some (instantToday tz now t.hour t.minute)
             periodInMinutes := none }
    else none

/-- The recurring sentinel alarm armed at `now`. -/
def sentinelAlarm (now : Int) : Alarm :=
  { name := "dailyUpdate"
    scheduledTime := some (now + 1440 * msPerMinute)
    periodInMinutes := some 1440 }

/-- The one-shot alarms of a table: the alarms without a period. -/
def oneShots (tbl : AlarmTable) : AlarmTable :=
  tbl.filter (fun a => a.periodInMinutes.isNone)

/-- The recurring alarms of a table. -/
def recurring (tbl : AlarmTable) : AlarmTable :=
  tbl.filter (fun a => a.periodInMinutes.isSome)

/-- Whether the snapshot `snap` has the key `K` with an instant strictly after
`now`. -/
def isFutureEvent (tz : TimeZone) (snap : String → Option TimeOfDay) (now : Int)
    (K : String) : Bool :=
  match snap K with
  | some t => decide (now < instantToday tz now t.hour t.minute)
  | none => false

/-! ## Worked examples -/

/-- The snapshot of the worked example: the five canonical events. -/
def exampleSnapshot : String → Option TimeOfDay := fun K =>
  [("Fajr", (⟨4, 0, none⟩ : TimeOfDay)), ("Dhuhr", ⟨12, 15, none⟩), ("Asr", ⟨15, 30, none⟩),
   ("Maghrib", ⟨18, 45, none⟩), ("Isha", ⟨20, 0, none⟩)].lookup K

/-- The timings object of the worked example. -/
def exampleProps : List (String × JsVal) :=
  [("Fajr", .str "04:00"), ("Sunrise", .str "05:21"), ("Dhuhr", .str "12:15"),
   ("Asr", .str "15:30"), ("Maghrib", .str "18:45"), ("Isha", .str "20:00")]

/-- An alarm table left by an earlier cycle. -/
def staleTable : AlarmTable :=
  [{ name := "prayer_Fajr", scheduledTime := some 14400000, periodInMinutes := none },
   { name := "dailyUpdate", scheduledTime := some 90000000, periodInMinutes := some 1440 }]

/-- A world with a city stored, alarms armed and timings persisted by an
earlier cycle. -/
def settledWorld : World :=
  { alarms :=
      [{ name := "prayer_Isha", scheduledTime := some 72000000, periodInMinutes := none },
       { name := "dailyUpdate", scheduledTime := some 90000000, periodInMinutes := some 1440 }]
    store :=
      { city := some "Riyadh", country := some "SA", timings := some (.obj exampleProps),
        lastUpdated := some 3600000 }
    notifications := []
    requests := [] }

/-- A snapshot with one entry, in the hour that the start of daylight saving
skips. -/
def skippedHourSnapshot : String → Option TimeOfDay := fun K =>
  [("Fajr", (⟨2, 45, none⟩ : TimeOfDay))].lookup K

/-- The timings object of `skippedHourSnapshot`. -/
def skippedHourProps : List (String × JsVal) :=
  [("Fajr", .str "02:45")]

/-- A response with HTTP status 200 and the code 200 whose `data` has no
`timings`. -/
def okWithoutTimings : FetchOutcome :=
  .response 200 (.value (.num 200) (.str "OK") (some .nullish))

/-- A response with HTTP status 200 and the code 400. -/
def badRequest : FetchOutcome :=
  .response 200 (.value (.num 400) (.str "Bad Request") none)

/-! ## Lemmas on strings -/

theorem splitChars_of_not_mem (sep : Char) (cs : List Char) (h : sep ∉ cs) :
    splitChars sep cs = [cs] := by
  induction cs with
  | nil => rfl
  | cons c cs ih =>
    have hc : c ≠ sep := fun e => h (by simp [e])
    have hcs : sep ∉ cs := fun e => h (by simp [e])
    simp [splitChars, hc, ih hcs]

theorem splitChars_append_sep (sep : Char) (cs rest : List Char) (h : sep ∉ cs) :
    splitChars sep (cs ++ sep :: rest) = cs :: splitChars sep rest := by
  induction cs with
  | nil => simp [splitChars]
  | cons c cs ih =>
    have hc : c ≠ sep := fun e => h (by simp [e])
    have hcs : sep ∉ cs := fun e => h (by simp [e])
    simp [splitChars, hc, ih hcs]

/-- The facts about the two-digit text of a number that parsing relies on. -/
theorem pad2_facts : ∀ n : Nat, n < 60 →
    ' ' ∉ (pad2 n).data ∧ ':' ∉ (pad2 n).data ∧ jsNumber (pad2 n) = .finite (n : Int) 0 := by
  decide

theorem jsSplit_colon_hhmm (h m : Nat) (hh : h < 60) (hm : m < 60) :
    jsSplit (hhmm h m) ':' = [pad2 h, pad2 m] := by
  have h1 := (pad2_facts h hh).2.1
  have h2 := (pad2_facts m hm).2.1
  have e : (hhmm h m).data = (pad2 h).data ++ ':' :: (pad2 m).data := by
    simp [hhmm, String.data_append]
  simp [jsSplit, e, splitChars_append_sep _ _ _ h1, splitChars_of_not_mem _ _ h2]

theorem hhmm_no_space (h m : Nat) (hh : h < 60) (hm : m < 60) :
    ' ' ∉ (hhmm h m).data := by
  have h1 := (pad2_facts h hh).1
  have h2 := (pad2_facts m hm).1
  have e : (hhmm h m).data = (pad2 h).data ++ ':' :: (pad2 m).data := by
    simp [hhmm, String.data_append]
  rw [e]
  intro hmem
  rcases List.mem_append.1 hmem with hmem | hmem
  · exact h1 hmem
  · rcases List.mem_cons.1 hmem with hmem | hmem
    · exact absurd hmem (by decide)
    · exact h2 hmem

theorem clean_hhmm (h m : Nat) (hh : h < 60) (hm : m < 60) :
    (jsSplit (hhmm h m) ' ').headD "" = hhmm h m := by
  simp [jsSplit, splitChars_of_not_mem _ _ (hhmm_no_space h m hh hm)]

theorem clean_hhmm_suffix (h m : Nat) (hh : h < 60) (hm : m < 60) (sfx : String) :
    (jsSplit (hhmm h m ++ " " ++ sfx) ' ').headD "" = hhmm h m := by
  have e : (hhmm h m ++ " " ++ sfx).data = (hhmm h m).data ++ ' ' :: sfx.data := by
    simp [String.data_append]
  simp [jsSplit, e, splitChars_append_sep _ _ _ (hhmm_no_space h m hh hm)]

/-- Parsing a text whose first token is `HH:MM` gives the instant of that hour
and minute of local time on the local day of `now`, clipped to the range of
`Date`. -/
theorem parse_of_clean (tz : TimeZone) (now : Int) (h m : Nat) (hh : h < 60) (hm : m < 60)
    (text : String) (hclean : (jsSplit text ' ').headD "" = hhmm h m) :
    parseTimeToday tz now text = TimeClip (instantToday tz now h m) := by
  have h3 := (pad2_facts h hh).2.2
  have h4 := (pad2_facts m hm).2.2
  unfold parseTimeToday
  simp only [hclean, jsSplit_colon_hhmm h m hh hm]
  simp only [List.map_cons, List.map_nil, h3, h4, List.get?_cons_zero, List.get?_cons_succ,
    Option.getD_some, setHours, MakeDate, MakeTime, JsNumber.toInteger, truncDecimal,
    instantToday, localToday, Option.map_some']
  simp only [le_refl, if_true, Int.toNat_zero, pow_zero, mul_one, zero_mul, add_zero, mul_zero]
  congr 2
  ring

theorem parse_render (tz : TimeZone) (now : Int) (t : TimeOfDay) (hh : t.hour < 24)
    (hm : t.minute < 60) :
    parseTimeToday tz now t.render = TimeClip (instantToday tz now t.hour t.minute) := by
  have hh60 : t.hour < 60 := by omega
  cases hs : t.suffix with
  | none =>
    simp only [TimeOfDay.render, hs]
    exact parse_of_clean tz now _ _ hh60 hm _ (clean_hhmm _ _ hh60 hm)
  | some sfx =>
    simp only [TimeOfDay.render, hs]
    exact parse_of_clean tz now _ _ hh60 hm _ (clean_hhmm_suffix _ _ hh60 hm sfx)

theorem TimeClip_of_isTimeValue (t : Int) (h : isTimeValue t = true) : TimeClip t = some t := by
  simp only [isTimeValue, Bool.and_eq_true, decide_eq_true_eq] at h
  simp [TimeClip, h.1, h.2]

/-- The fields of a local date-time made of a day, an hour below 24 and a
minute below 60. -/
theorem local_fields (d : Int) (h m : Nat) (hh : h < 24) (hm : m < 60) :
    Day (d * msPerDay + (h : Int) * msPerHour + (m : Int) * msPerMinute) = d ∧
    HourFromTime (d * msPerDay + (h : Int) * msPerHour + (m : Int) * msPerMinute) = h ∧
    MinFromTime (d * msPerDay + (h : Int) * msPerHour + (m : Int) * msPerMinute) = m ∧
    SecFromTime (d * msPerDay + (h : Int) * msPerHour + (m : Int) * msPerMinute) = 0 ∧
    msFromTime (d * msPerDay + (h : Int) * msPerHour + (m : Int) * msPerMinute) = 0 := by
  simp only [Day, HourFromTime, MinFromTime, SecFromTime, msFromTime, msPerDay,
    msPerHour, msPerMinute]
  refine ⟨?_, ?_, ?_, ?_, ?_⟩ <;> omega

theorem render_ne_empty (t : TimeOfDay) : t.render ≠ "" := by
  intro e
  have e2 := congrArg String.data e
  cases hs : t.suffix with
  | none => simp [TimeOfDay.render, hs, hhmm, pad2, String.data_append] at e2
  | some sfx => simp [TimeOfDay.render, hs, hhmm, pad2, String.data_append] at e2

theorem prayerName_ne_sentinel (K : String) : "prayer_" ++ K ≠ "dailyUpdate" := by
  intro e
  have e2 := congrArg (fun x : String => x.data.head?) e
  simp [String.data_append] at e2

theorem prayerName_inj (a b : String) (e : "prayer_" ++ a = "prayer_" ++ b) : a = b := by
  have e2 := congrArg String.data e
  simp only [String.data_append] at e2
  exact String.ext (List.append_cancel_left e2)

/-! ## Lemmas on the alarm table -/

theorem alarmsCreate_fireAt_fresh (now : Int) (name : String) (w : TimeValue) (tbl : AlarmTable)
    (hfresh : ∀ a ∈ tbl, a.name ≠ name) :
    alarmsCreate now name (.fireAt w) tbl =
      tbl ++ [{ name := name, scheduledTime := w, periodInMinutes := none }] := by
  have hf : tbl.filter (fun a => a.name != name) = tbl := by
    apply List.filter_eq_self.2
    intro a ha
    simpa using hfresh a ha
  simp [alarmsCreate, hf]

theorem alarmsCreate_names_nodup (now : Int) (name : String) (info : AlarmInfo)
    (tbl : AlarmTable) (h : (tbl.map Alarm.name).Nodup) :
    ((alarmsCreate now name info tbl).map Alarm.name).Nodup := by
  have hk : ((tbl.filter (fun a => a.name != name)).map Alarm.name).Nodup :=
    (h.sublist ((List.filter_sublist tbl).map Alarm.name))
  have hnot : name ∉ (tbl.filter (fun a => a.name != name)).map Alarm.name := by
    intro hmem
    rcases List.mem_map.1 hmem with ⟨a, ha, hname⟩
    have := (List.mem_filter.1 ha).2
    simp [hname] at this
  cases info with
  | fireAt w =>
    simp only [alarmsCreate, List.map_append, List.map_cons, List.map_nil]
    exact List.Nodup.append hk (List.nodup_singleton _) (by simp [hnot])
  | every d p =>
    simp only [alarmsCreate, List.map_append, List.map_cons, List.map_nil]
    exact List.Nodup.append hk (List.nodup_singleton _) (by simp [hnot])

theorem scheduleLoop_names_nodup (tz : TimeZone) (timings : Timings) (now : Int) :
    ∀ (es : List (String × String)) (tbl : AlarmTable), (tbl.map Alarm.name).Nodup →
      (((scheduleLoop tz timings now es tbl).1).map Alarm.name).Nodup := by
  intro es
  induction es with
  | nil => intro tbl h; simpa [scheduleLoop] using h
  | cons e rest ih =>
    intro tbl h
    obtain ⟨prayer, arabic⟩ := e
    simp only [scheduleLoop]
    cases hg : timings.get prayer with
    | none => simpa using h
    | some v =>
      simp only []
      by_cases ht : v.truthy = true
      · simp only [ht, Bool.not_true, Bool.false_eq_true, if_false]
        cases v with
        | str s =>
          simp only []
          by_cases hle : jsLe (parseTimeToday tz now s) now = true
          · simp only [hle, if_true]; exact ih tbl h
          · simp only [hle, if_false]
            exact ih _ (alarmsCreate_names_nodup _ _ _ _ h)
        | undefined => simpa using h
        | null => simpa using h
        | bool b => simpa using h
        | num n => simpa using h
        | object text => simpa using h
      · simp only [ht, Bool.not_false, if_true]
        exact ih tbl h

/-- On a snapshot whose entries for the keys of `es` are absent or valid
`HH:MM` texts, the loop appends, in order, the one-shot alarm of every key
whose instant is after `now`, and ends normally. -/
theorem scheduleLoop_valid (tz : TimeZone) (props : List (String × JsVal))
    (snap : String → Option TimeOfDay) (now : Int) :
    ∀ (es : List (String × String)) (tbl : AlarmTable),
      (∀ e ∈ es, props.lookup e.1 = (snap e.1).map (fun t => JsVal.str t.render)) →
      (∀ e ∈ es, ∀ t, snap e.1 = some t → t.hour < 24 ∧ t.minute < 60 ∧
        isTimeValue (instantToday tz now t.hour t.minute) = true) →
      (es.map Prod.fst).Nodup →
      (∀ a ∈ tbl, ∀ e ∈ es, a.name ≠ "prayer_" ++ e.1) →
      scheduleLoop tz (.obj props) now es tbl =
        (tbl ++ (es.map Prod.fst).filterMap (expectedOneShot tz snap now), none) := by
  intro es
  induction es with
  | nil => intro tbl _ _ _ _; simp [scheduleLoop]
  | cons e rest ih =>
    intro tbl hsnap hvalid hnodup hfresh
    obtain ⟨K, arabic⟩ := e
    have hsnapK := hsnap (K, arabic) (by simp)
    have hrest := ih
    have hsnapR : ∀ e ∈ rest, props.lookup e.1 = (snap e.1).map (fun t => JsVal.str t.render) :=
      fun e he => hsnap e (by simp [he])
    have hvalidR : ∀ e ∈ rest, ∀ t, snap e.1 = some t → t.hour < 24 ∧ t.minute < 60 ∧
        isTimeValue (instantToday tz now t.hour t.minute) = true :=
      fun e he => hvalid e (by simp [he])
    have hnodupR : (rest.map Prod.fst).Nodup := (List.nodup_cons.1 hnodup).2
    have hKnot : K ∉ rest.map Prod.fst := (List.nodup_cons.1 hnodup).1
    have hfreshR : ∀ a ∈ tbl, ∀ e ∈ rest, a.name ≠ "prayer_" ++ e.1 :=
      fun a ha e he => hfresh a ha e (by simp [he])
    simp only [scheduleLoop, Timings.get, List.map_cons, List.filterMap_cons]
    cases hs : snap K with
    | none =>
      simp only [hs, Option.map_none'] at hsnapK
      simp only [hsnapK, Option.getD_none, JsVal.truthy, Bool.not_false, if_true,
        expectedOneShot, hs]
      exact ih tbl hsnapR hvalidR hnodupR hfreshR
    | some t =>
      simp only [hs, Option.map_some'] at hsnapK
      have hv := hvalid (K, arabic) (by simp) t hs
      have hne : (t.render != "") = true := by simpa using render_ne_empty t
      simp only [hsnapK, Option.getD_some, JsVal.truthy, hne, Bool.not_true,
        Bool.false_eq_true, if_false, parse_render tz now t hv.1 hv.2.1,
        TimeClip_of_isTimeValue _ hv.2.2, jsLe, expectedOneShot, hs]
      by_cases hlt : now < instantToday tz now t.hour t.minute
      · have hnle : ¬ instantToday tz now t.hour t.minute ≤ now := not_le.2 hlt
        simp only [hnle, decide_False, Bool.false_eq_true, if_false, hlt, if_true]
        rw [alarmsCreate_fireAt_fresh now _ _ tbl (fun a ha => hfresh a ha (K, arabic) (by simp))]
        rw [ih _ hsnapR hvalidR hnodupR]
        · simp
        · intro a ha e he
          rcases List.mem_append.1 ha with ha | ha
          · exact hfreshR a ha e he
          · have hname : a.name = "prayer_" ++ K := by
              have := List.mem_singleton.1 ha
              rw [this]
            rw [hname]
            intro heq
            exact hKnot (by rw [prayerName_inj _ _ heq]; exact List.mem_map_of_mem _ he)
      · have hle : instantToday tz now t.hour t.minute ≤ now := not_lt.1 hlt
        simp only [hle, decide_True, if_true, hlt, if_false]
        exact ih tbl hsnapR hvalidR hnodupR hfreshR

theorem expectedOneShot_props (tz : TimeZone) (snap : String → Option TimeOfDay) (now : Int)
    (K : String) (a : Alarm) (h : expectedOneShot tz snap now K = some a) :
    a.name = "prayer_" ++ K ∧ a.periodInMinutes = none ∧
      ∃ t, snap K = some t ∧ now < instantToday tz now t.hour t.minute ∧
        a.scheduledTime = some (instantToday tz now t.hour t.minute) := by
  unfold expectedOneShot at h
  cases hs : snap K with
  | none => simp [hs] at h
  | some t =>
    simp only [hs] at h
    by_cases hlt : now < instantToday tz now t.hour t.minute
    · simp only [hlt, if_true, Option.some.injEq] at h
      subst h
      exact ⟨rfl, rfl, t, rfl, hlt, rfl⟩
    · simp [hlt] at h

theorem expectedOneShot_isSome (tz : TimeZone) (snap : String → Option TimeOfDay) (now : Int)
    (K : String) : (expectedOneShot tz snap now K).isSome = isFutureEvent tz snap now K := by
  unfold expectedOneShot isFutureEvent
  cases snap K with
  | none => rfl
  | some t => by_cases h : now < instantToday tz now t.hour t.minute <;> simp [h]

theorem length_filterMap_eq_filter {α β : Type} (f : α → Option β) (l : List α) :
    (l.filterMap f).length = (l.filter (fun x => (f x).isSome)).length := by
  induction l with
  | nil => rfl
  | cons x xs ih =>
    cases hx : f x with
    | none => simp [List.filterMap_cons, hx, List.filter_cons, ih]
    | some y => simp [List.filterMap_cons, hx, List.filter_cons, ih]

/-- The table that `schedulePrayerAlarms` leaves on a snapshot whose canonical
entries are absent or valid `HH:MM` texts. -/
theorem schedule_valid_table (tz : TimeZone) (props : List (String × JsVal))
    (snap : String → Option TimeOfDay) (now : Int) (prior : AlarmTable)
    (hsnap : ∀ K ∈ canonicalKeys,
      props.lookup K = (snap K).map (fun t => JsVal.str t.render))
    (hvalid : ∀ K ∈ canonicalKeys, ∀ t ∈ snap K, t.hour < 24 ∧ t.minute < 60 ∧
      isTimeValue (instantToday tz now t.hour t.minute) = true) :
    schedulePrayerAlarms tz (.obj props) now prior =
      (canonicalKeys.filterMap (expectedOneShot tz snap now) ++ [sentinelAlarm now], none) := by
  have hloop := scheduleLoop_valid tz props snap now PRAYER_NAMES []
    (fun e he => hsnap e.1 (List.mem_map_of_mem _ he))
    (fun e he t ht => hvalid e.1 (List.mem_map_of_mem _ he) t ht)
    (by decide) (by simp)
  simp only [schedulePrayerAlarms, alarmsClearAll, hloop, List.nil_append]
  have hfresh : ∀ a ∈ (PRAYER_NAMES.map Prod.fst).filterMap (expectedOneShot tz snap now),
      (a.name != "dailyUpdate") = true := by
    intro a ha
    rcases List.mem_filterMap.1 ha with ⟨K, _, hK⟩
    have := (expectedOneShot_props tz snap now K a hK).1
    rw [this]
    simpa using prayerName_ne_sentinel K
  simp only [alarmsCreate]
  rw [List.filter_eq_self.2 hfresh]
  rfl

theorem oneShots_expected (tz : TimeZone) (snap : String → Option TimeOfDay) (now : Int)
    (ks : List String) :
    oneShots (ks.filterMap (expectedOneShot tz snap now) ++ [sentinelAlarm now]) =
      ks.filterMap (expectedOneShot tz snap now) := by
  have hall : ∀ a ∈ ks.filterMap (expectedOneShot tz snap now),
      a.periodInMinutes.isNone = true := by
    intro a ha
    rcases List.mem_filterMap.1 ha with ⟨K, _, hK⟩
    simp [(expectedOneShot_props tz snap now K a hK).2.1]
  simp [oneShots, List.filter_append, List.filter_eq_self.2 hall, sentinelAlarm]

/-- C1. In every time zone, on a snapshot whose canonical entries are absent or
valid `HH:MM` texts (with or without a space and an annotation after them)
whose instants today are time values of `Date`, whatever the prior alarm table
and the instant `now`, `schedulePrayerAlarms` ends normally and the one-shot
alarms it leaves are exactly the alarms `prayer_K` at today's time of `K`, for
the canonical keys `K` present in the snapshot whose instant is strictly after
`now`: their number is the number of such keys, and no alarm is left for a key
whose instant is at or before `now`. -/
theorem schedule_arms_exactly_future_events (tz : TimeZone) (props : List (String × JsVal))
    (snap : String → Option TimeOfDay) (now : Int) (prior : AlarmTable)
    (hsnap : ∀ K ∈ canonicalKeys,
      props.lookup K = (snap K).map (fun t => JsVal.str t.render))
    (hvalid : ∀ K ∈ canonicalKeys, ∀ t ∈ snap K, t.hour < 24 ∧ t.minute < 60 ∧
      isTimeValue (instantToday tz now t.hour t.minute) = true) :
    (schedulePrayerAlarms tz (.obj props) now prior).2 = none ∧
    oneShots (schedulePrayerAlarms tz (.obj props) now prior).1 =
      canonicalKeys.filterMap (expectedOneShot tz snap now) ∧
    (∀ a : Alarm, a ∈ oneShots (schedulePrayerAlarms tz (.obj props) now prior).1 ↔
      ∃ K ∈ canonicalKeys, ∃ t, snap K = some t ∧ now < instantToday tz now t.hour t.minute ∧
        a = { name := "prayer_" ++ K
              scheduledTime := some (instantToday tz now t.hour t.minute)
              periodInMinutes := none }) ∧
    (oneShots (schedulePrayerAlarms tz (.obj props) now prior).1).length =
      (canonicalKeys.filter (isFutureEvent tz snap now)).length ∧
    (∀ K ∈ canonicalKeys, ∀ t, snap K = some t → instantToday tz now t.hour t.minute ≤ now →
      ∀ a ∈ (schedulePrayerAlarms tz (.obj props) now prior).1, a.name ≠ "prayer_" ++ K) := by
  have htbl := schedule_valid_table tz props snap now prior hsnap hvalid
  have hmem : ∀ a : Alarm, a ∈ canonicalKeys.filterMap (expectedOneShot tz snap now) ↔
      ∃ K ∈ canonicalKeys, ∃ t, snap K = some t ∧ now < instantToday tz now t.hour t.minute ∧
        a = { name := "prayer_" ++ K
              scheduledTime := some (instantToday tz now t.hour t.minute)
              periodInMinutes := none } := by
    intro a
    constructor
    · intro ha
      rcases List.mem_filterMap.1 ha with ⟨K, hK, hKa⟩
      obtain ⟨h1, h2, t, h3, h4, h5⟩ := expectedOneShot_props tz snap now K a hKa
      refine ⟨K, hK, t, h3, h4, ?_⟩
      cases a
      simp_all
    · rintro ⟨K, hK, t, h3, h4, rfl⟩
      refine List.mem_filterMap.2 ⟨K, hK, ?_⟩
      simp [expectedOneShot, h3, h4]
  rw [htbl]
  simp only [oneShots_expected]
  refine ⟨trivial, trivial, hmem, ?_, ?_⟩
  · rw [length_filterMap_eq_filter]
    congr 2
    funext K
    exact expectedOneShot_isSome tz snap now K
  · intro K _ t ht hpast a ha heq
    rcases List.mem_append.1 ha with ha | ha
    · obtain ⟨K2, _, t2, h3, h4, rfl⟩ := (hmem a).1 ha
      have hKK : K2 = K := prayerName_inj _ _ heq
      subst hKK
      rw [ht] at h3
      cases h3
      exact absurd h4 (not_lt.2 hpast)
    · have hs : a = sentinelAlarm now := List.mem_singleton.1 ha
      rw [hs] at heq
      exact prayerName_ne_sentinel K heq.symm

/-- The worked example of C1: the five events at 04:00, 12:15, 15:30, 18:45 and
20:00, scheduled at 13:00 over a stale table, leave exactly the one-shot alarms
of Asr, Maghrib and Isha.  And in New York on 9 March 2025 at 03:10 local time
(07:10 UTC), after the clocks went from 02:00 to 03:00, an entry `02:45` is
read as 03:45 local time (07:45 UTC), which is after `now`, and is armed. -/
theorem schedule_arms_exactly_future_events_witness :
    (∀ K ∈ canonicalKeys,
      exampleProps.lookup K = (exampleSnapshot K).map (fun t => JsVal.str t.render)) ∧
    (∀ K ∈ canonicalKeys, ∀ t ∈ exampleSnapshot K, t.hour < 24 ∧ t.minute < 60 ∧
      isTimeValue (instantToday utcZone 46800000 t.hour t.minute) = true) ∧
    oneShots (schedulePrayerAlarms utcZone (.obj exampleProps) 46800000 staleTable).1 =
      canonicalKeys.filterMap (expectedOneShot utcZone exampleSnapshot 46800000) ∧
    canonicalKeys.filterMap (expectedOneShot utcZone exampleSnapshot 46800000) =
      [{ name := "prayer_Asr", scheduledTime := some 55800000, periodInMinutes := none },
       { name := "prayer_Maghrib", scheduledTime := some 67500000, periodInMinutes := none },
       { name := "prayer_Isha", scheduledTime := some 72000000, periodInMinutes := none }] ∧
    oneShots (schedulePrayerAlarms newYorkSpring2025 (.obj skippedHourProps) 1741504200000
        staleTable).1 =
      canonicalKeys.filterMap (expectedOneShot newYorkSpring2025 skippedHourSnapshot
        1741504200000) ∧
    canonicalKeys.filterMap (expectedOneShot newYorkSpring2025 skippedHourSnapshot
        1741504200000) =
      [{ name := "prayer_Fajr", scheduledTime := some 1741506300000,
         periodInMinutes := none }] :=
  ⟨by decide, by decide,
    (schedule_arms_exactly_future_events utcZone exampleProps exampleSnapshot 46800000
      staleTable (by decide) (by decide)).2.1,
    by decide,
    (schedule_arms_exactly_future_events newYorkSpring2025 skippedHourProps
      skippedHourSnapshot 1741504200000 staleTable (by decide) (by decide)).2.1,
    by decide⟩

/-- On a timings object whose truthy entries for the keys of `es` are strings,
the loop ends normally, leaves a table of one-shot alarms that are not named
`dailyUpdate` if it started from one, and leaves the table as it is when none
of the keys is present. -/
theorem scheduleLoop_typed (tz : TimeZone) (props : List (String × JsVal)) (now : Int) :
    ∀ (es : List (String × String)) (tbl : AlarmTable),
      (∀ e ∈ es, ∀ v, props.lookup e.1 = some v → v.truthy = true → ∃ s, v = .str s) →
      (∀ a ∈ tbl, a.periodInMinutes = none ∧ a.name ≠ "dailyUpdate") →
      (scheduleLoop tz (.obj props) now es tbl).2 = none ∧
      (∀ a ∈ (scheduleLoop tz (.obj props) now es tbl).1,
        a.periodInMinutes = none ∧ a.name ≠ "dailyUpdate") ∧
      ((∀ e ∈ es, props.lookup e.1 = none) → (scheduleLoop tz (.obj props) now es tbl).1 = tbl) := by
  intro es
  induction es with
  | nil => intro tbl _ htbl; simpa [scheduleLoop] using htbl
  | cons e rest ih =>
    intro tbl htyped htbl
    obtain ⟨K, arabic⟩ := e
    have htypedK := htyped (K, arabic) (by simp)
    have htypedR : ∀ e ∈ rest, ∀ v, props.lookup e.1 = some v → v.truthy = true →
        ∃ s, v = .str s := fun e he => htyped e (by simp [he])
    simp only [scheduleLoop, Timings.get]
    cases hl : props.lookup K with
    | none =>
      simp only [Option.getD_none, JsVal.truthy, Bool.not_false, if_true]
      obtain ⟨h1, h2, h3⟩ := ih tbl htypedR htbl
      exact ⟨h1, h2, fun hnone => h3 (fun e he => hnone e (by simp [he]))⟩
    | some v =>
      simp only [Option.getD_some]
      by_cases ht : v.truthy = true
      · obtain ⟨s, rfl⟩ := htypedK v hl ht
        simp only [ht, Bool.not_true, Bool.false_eq_true, if_false]
        have hnoneF : ¬ ∀ e ∈ (K, arabic) :: rest, props.lookup e.1 = none := by
          intro hnone
          have := hnone (K, arabic) (by simp)
          simp [hl] at this
        by_cases hle : jsLe (parseTimeToday tz now s) now = true
        · simp only [hle, if_true]
          obtain ⟨h1, h2, _⟩ := ih tbl htypedR htbl
          exact ⟨h1, h2, fun hnone => absurd hnone hnoneF⟩
        · simp only [hle, if_false]
          have hnew : ∀ a ∈ alarmsCreate now ("prayer_" ++ K)
              (.fireAt (parseTimeToday tz now s)) tbl,
              a.periodInMinutes = none ∧ a.name ≠ "dailyUpdate" := by
            intro a ha
            simp only [alarmsCreate] at ha
            rcases List.mem_append.1 ha with ha | ha
            · exact htbl a (List.mem_filter.1 ha).1
            · rw [List.mem_singleton.1 ha]
              exact ⟨rfl, prayerName_ne_sentinel K⟩
          obtain ⟨h1, h2, _⟩ := ih _ htypedR hnew
          exact ⟨h1, h2, fun hnone => absurd hnone hnoneF⟩
      · simp only [ht, Bool.not_false, if_true]
        have hnoneF : ¬ ∀ e ∈ (K, arabic) :: rest, props.lookup e.1 = none := by
          intro hnone
          have := hnone (K, arabic) (by simp)
          simp [hl] at this
        obtain ⟨h1, h2, _⟩ := ih tbl htypedR htbl
        exact ⟨h1, h2, fun hnone => absurd hnone hnoneF⟩

/-- C2, as the claim states it, fails on timings that the fetcher can return:
when `data` has no `timings` the value is `undefined`, and the call throws a
`TypeError` right after clearing the table; when an entry is a truthy value
that is not a string (here the number 1215 for Dhuhr) the call throws at that
entry.  Either way no alarm named `dailyUpdate` is armed. -/
theorem schedule_throws_without_sentinel :
    schedulePrayerAlarms utcZone .nullish 46800000 staleTable = ([], some .typeError) ∧
    schedulePrayerAlarms utcZone
        (.obj [("Fajr", .str "20:00"), ("Dhuhr", .num 1215)]) 46800000 staleTable =
      ([{ name := "prayer_Fajr", scheduledTime := some 72000000, periodInMinutes := none }],
        some .typeError) ∧
    (schedulePrayerAlarms utcZone .nullish 46800000 staleTable).1.filter
        (fun a => a.name == "dailyUpdate") = [] ∧
    (schedulePrayerAlarms utcZone
        (.obj [("Fajr", .str "20:00"), ("Dhuhr", .num 1215)]) 46800000 staleTable).1.filter
        (fun a => a.name == "dailyUpdate") = [] := by
  decide

/-- C2, amended. In every time zone, on every timings object whose canonical
entries are absent, falsy or strings (whatever the strings hold) and every
prior alarm table, `schedulePrayerAlarms` ends normally and leaves exactly one
alarm named
`dailyUpdate`, which is also the only recurring alarm of the table: its period
is 1440 minutes and its first fire is 1440 minutes after `now`.  When none of
the five canonical keys is present it is the only alarm of the table. -/
theorem schedule_arms_one_sentinel (tz : TimeZone) (props : List (String × JsVal))
    (now : Int) (prior : AlarmTable)
    (htyped : ∀ K ∈ canonicalKeys, ∀ v, props.lookup K = some v → v.truthy = true →
      ∃ s, v = .str s) :
    (schedulePrayerAlarms tz (.obj props) now prior).2 = none ∧
    (schedulePrayerAlarms tz (.obj props) now prior).1.filter
        (fun a => a.name == "dailyUpdate") =
      [{ name := "dailyUpdate", scheduledTime := some (now + 1440 * 60000),
         periodInMinutes := some 1440 }] ∧
    recurring (schedulePrayerAlarms tz (.obj props) now prior).1 =
      [{ name := "dailyUpdate", scheduledTime := some (now + 1440 * 60000),
         periodInMinutes := some 1440 }] ∧
    ((∀ K ∈ canonicalKeys, props.lookup K = none) →
      (schedulePrayerAlarms tz (.obj props) now prior).1 =
        [{ name := "dailyUpdate", scheduledTime := some (now + 1440 * 60000),
           periodInMinutes := some 1440 }]) := by
  obtain ⟨h1, h2, h3⟩ := scheduleLoop_typed tz props now PRAYER_NAMES []
    (fun e he => htyped e.1 (List.mem_map_of_mem _ he)) (by simp)
  have hsplit : schedulePrayerAlarms tz (.obj props) now prior =
      ((scheduleLoop tz (.obj props) now PRAYER_NAMES []).1 ++
        [{ name := "dailyUpdate", scheduledTime := some (now + 1440 * 60000),
           periodInMinutes := some 1440 }], none) := by
    have hkeep : (scheduleLoop tz (.obj props) now PRAYER_NAMES []).1.filter
        (fun a => a.name != "dailyUpdate") = (scheduleLoop tz (.obj props) now PRAYER_NAMES []).1 :=
      List.filter_eq_self.2 (fun a ha => by simpa using (h2 a ha).2)
    generalize hr : scheduleLoop tz (.obj props) now PRAYER_NAMES [] = r at h1 hkeep
    obtain ⟨tbl1, c⟩ := r
    simp only at h1
    subst h1
    simp only [schedulePrayerAlarms, alarmsClearAll, hr, alarmsCreate]
    simp only at hkeep
    rw [hkeep]
    rfl
  rw [hsplit]
  refine ⟨rfl, ?_, ?_, ?_⟩
  · have hno : (scheduleLoop tz (.obj props) now PRAYER_NAMES []).1.filter
        (fun a => a.name == "dailyUpdate") = [] :=
      List.filter_eq_nil_iff.2 (fun a ha => by simpa using (h2 a ha).2)
    simp [List.filter_append, hno]
  · have hno : (scheduleLoop tz (.obj props) now PRAYER_NAMES []).1.filter
        (fun a => a.periodInMinutes.isSome) = [] :=
      List.filter_eq_nil_iff.2 (fun a ha => by simp [(h2 a ha).1])
    simp [recurring, List.filter_append, hno]
  · intro hnone
    have := h3 (fun e he => hnone e.1 (List.mem_map_of_mem _ he))
    simp [this]

/-- A snapshot without any of the five canonical events, over a table that
already holds a sentinel and a stale alarm: the sentinel is armed alone. -/
theorem schedule_arms_one_sentinel_witness :
    (∀ K ∈ canonicalKeys, ∀ v, [("Sunrise", JsVal.str "05:21")].lookup K = some v →
      v.truthy = true → ∃ s, v = .str s) ∧
    (schedulePrayerAlarms utcZone (.obj [("Sunrise", .str "05:21")]) 46800000 staleTable).1 =
      [{ name := "dailyUpdate", scheduledTime := some (46800000 + 1440 * 60000),
         periodInMinutes := some 1440 }] :=
  have hty : ∀ K ∈ canonicalKeys, ∀ v, [("Sunrise", JsVal.str "05:21")].lookup K = some v →
      v.truthy = true → ∃ s, v = .str s := by
    intro K hK v hv
    have hnone : ∀ K ∈ canonicalKeys, [("Sunrise", JsVal.str "05:21")].lookup K = none := by
      decide
    rw [hnone K hK] at hv
    cases hv
  ⟨hty,
    (schedule_arms_one_sentinel utcZone [("Sunrise", .str "05:21")] 46800000 staleTable hty).2.2.2
      (by decide)⟩

/-- C3. `schedulePrayerAlarms` at a fixed instant, in any time zone and on any
timings value, does not depend on the prior
alarm table, so a second call with the same timings leaves what the first one
left, and the table it leaves has at most one alarm per name. -/
theorem schedule_idempotent (tz : TimeZone) (timings : Timings) (now : Int)
    (prior other : AlarmTable) :
    schedulePrayerAlarms tz timings now prior = schedulePrayerAlarms tz timings now other ∧
    schedulePrayerAlarms tz timings now (schedulePrayerAlarms tz timings now prior).1 =
      schedulePrayerAlarms tz timings now prior ∧
    ((schedulePrayerAlarms tz timings now prior).1.map Alarm.name).Nodup := by
  refine ⟨rfl, rfl, ?_⟩
  have hloop := scheduleLoop_names_nodup tz timings now PRAYER_NAMES [] (by simp)
  simp only [schedulePrayerAlarms, alarmsClearAll]
  generalize scheduleLoop tz timings now PRAYER_NAMES [] = r at hloop
  obtain ⟨tbl1, c⟩ := r
  cases c with
  | some e => exact hloop
  | none => exact alarmsCreate_names_nodup now "dailyUpdate" (.every 1440 1440) tbl1 hloop

/-- C4, as the claim states it, fails in two ways.  With a tab, which is white
space, between `05:17` and the annotation `(+03)` the text is not split, the
minute token is not a number and the date is invalid, while `05:17` alone
parses to 05:17 of the day.  And in New York on 9 March 2025, when the clocks
go from 02:00 to 03:00, the text `02:30` parses to an instant whose local hour
is 3, not 2. -/
theorem parse_tab_annotation_differs :
    isStrWhiteSpace '\t' = true ∧
    parseTimeToday utcZone 46800000 (hhmm 5 17 ++ "\t" ++ "(+03)") = none ∧
    parseTimeToday utcZone 46800000 (hhmm 5 17) = some (instantToday utcZone 46800000 5 17) ∧
    parseTimeToday utcZone 46800000 (hhmm 5 17 ++ "\t" ++ "(+03)") ≠
      parseTimeToday utcZone 46800000 (hhmm 5 17) ∧
    parseTimeToday newYorkSpring2025 1741500000000 (hhmm 2 30) = some 1741505400000 ∧
    HourFromTime (LocalTime newYorkSpring2025 1741505400000) = 3 ∧
    MinFromTime (LocalTime newYorkSpring2025 1741505400000) = 30 := by
  decide

/-- C4, amended. In every time zone, for every hour `h` below 24, minute `m`
below 60 and suffix `s`, parsing `HH:MM` followed by a space character and `s`
gives the same result as parsing `HH:MM` alone: the instant that the zone
gives to the local time `h:m:00.000` of the local day of `now`, clipped to the
range of `Date`.  When that local time exists on that day, that is, when the
instant read back in local time is that local time, its local day is the day
of `now`, its hour is `h`, its minute `m`, its second and millisecond 0. -/
theorem parse_ignores_space_suffix (tz : TimeZone) (now : Int) (h m : Nat) (s : String)
    (hh : h < 24) (hm : m < 60) :
    parseTimeToday tz now (hhmm h m ++ " " ++ s) = parseTimeToday tz now (hhmm h m) ∧
    parseTimeToday tz now (hhmm h m) = TimeClip (instantToday tz now h m) ∧
    (LocalTime tz (instantToday tz now h m) = localToday tz now h m →
      Day (LocalTime tz (instantToday tz now h m)) = Day (LocalTime tz now) ∧
      HourFromTime (LocalTime tz (instantToday tz now h m)) = h ∧
      MinFromTime (LocalTime tz (instantToday tz now h m)) = m ∧
      SecFromTime (LocalTime tz (instantToday tz now h m)) = 0 ∧
      msFromTime (LocalTime tz (instantToday tz now h m)) = 0) := by
  have hh60 : h < 60 := by omega
  have h1 := parse_of_clean tz now h m hh60 hm _ (clean_hhmm_suffix h m hh60 hm s)
  have h2 := parse_of_clean tz now h m hh60 hm _ (clean_hhmm h m hh60 hm)
  refine ⟨h1.trans h2.symm, h2, ?_⟩
  intro hexists
  rw [hexists]
  exact local_fields (Day (LocalTime tz now)) h m hh hm

/-- The text `05:17 (+03)` parses to hour 5, minute 17 of the day of `now`. -/
theorem parse_ignores_space_suffix_witness :
    hhmm 5 17 ++ " " ++ "(+03)" = "05:17 (+03)" ∧
    parseTimeToday utcZone 46800000 (hhmm 5 17 ++ " " ++ "(+03)") =
      parseTimeToday utcZone 46800000 (hhmm 5 17) ∧
    LocalTime utcZone (instantToday utcZone 46800000 5 17) = localToday utcZone 46800000 5 17 ∧
    HourFromTime (LocalTime utcZone (instantToday utcZone 46800000 5 17)) = 5 ∧
    MinFromTime (LocalTime utcZone (instantToday utcZone 46800000 5 17)) = 17 :=
  have h := parse_ignores_space_suffix utcZone 46800000 5 17 "(+03)" (by decide) (by decide)
  ⟨by decide, h.1, by decide, (h.2.2 (by decide)).2.1, (h.2.2 (by decide)).2.2.1⟩

/-- The two error messages of `fetchPrayerTimes` never coincide. -/
theorem transport_ne_application (status : Nat) (code text : JsVal) :
    transportMessage status ≠ applicationMessage code text := by
  intro e
  have e2 := congrArg (fun x : String => x.data.take 5) e
  simp [transportMessage, applicationMessage, String.data_append] at e2

/-- C6, as the claim states it, fails for a response whose HTTP status is a
success and whose body has the code 200 but no `data`: `json.data.timings`
throws a `TypeError`, so nothing is returned although the status is a success
and the code is 200, and the failure is neither the transport error nor the
application error.  A body that is `null` or is not JSON fails likewise. -/
theorem fetch_ok_200_without_data_throws :
    httpOk 200 = true ∧
    fetchPrayerTimes (.response 200 (.value (.num 200) (.str "OK") none)) =
      .error .typeError ∧
    fetchPrayerTimes (.response 200 .null) = .error .typeError ∧
    fetchPrayerTimes (.response 200 .notJson) = .error .syntaxError :=
  ⟨by decide, rfl, rfl, rfl⟩

/-- C6, amended. `fetchPrayerTimes` on a response: it returns
`json.data.timings` exactly when the HTTP status is a success and the body is
a JSON value with the code 200 and a `data` that is neither `undefined` nor
`null`; a status that is not a success gives the transport error with the
status in its message; a success with a body other than `null` whose code is
not the number 200 gives the application error with the code and the status
text in its message; a success with a body that is not JSON, is `null`, or has
the code 200 and no `data` fails with a `SyntaxError` or `TypeError`; the two
messages never coincide, and a refresh cycle sends one request whatever the
response. -/
theorem fetch_classifies_response (status : Nat) (body : ApiBody) :
    ((∃ t, fetchPrayerTimes (.response status body) = .ok t) ↔
      (httpOk status = true ∧ ∃ text t, body = .value (.num 200) text (some t))) ∧
    (∀ text t, httpOk status = true → body = .value (.num 200) text (some t) →
      fetchPrayerTimes (.response status body) = .ok t) ∧
    (httpOk status = false →
      fetchPrayerTimes (.response status body) = .error (.error (transportMessage status))) ∧
    (∀ code text data, httpOk status = true → body = .value code text data →
      code ≠ .num 200 →
      fetchPrayerTimes (.response status body) =
        .error (.error (applicationMessage code text))) ∧
    (httpOk status = true → body = .notJson →
      fetchPrayerTimes (.response status body) = .error .syntaxError) ∧
    (httpOk status = true → (body = .null ∨ ∃ text, body = .value (.num 200) text none) →
      fetchPrayerTimes (.response status body) = .error .typeError) ∧
    (∀ (s : Nat) (c text : JsVal),
      JsError.error (transportMessage s) ≠ JsError.error (applicationMessage c text)) ∧
    (∀ (tz : TimeZone) (now : Int) (w : World) (city : String),
      truthyString w.store.city = some city →
      (refreshPrayerTimes tz now (.response status body) w).1.requests =
        w.requests ++ [(city, (truthyString w.store.country).getD "SA")]) := by
  refine ⟨?_, ?_, ?_, ?_, ?_, ?_, ?_, ?_⟩
  · by_cases hok : httpOk status = true
    · cases body with
      | notJson => simp [fetchPrayerTimes, hok]
      | null => simp [fetchPrayerTimes, hok]
      | value code text data =>
        by_cases hc : code = .num 200
        · cases data with
          | none => simp [fetchPrayerTimes, hok, hc]
          | some t => simp [fetchPrayerTimes, hok, hc]
        · simp [fetchPrayerTimes, hok, hc]
    · simp [fetchPrayerTimes, hok]
  · intro text t hok hb
    simp [fetchPrayerTimes, hok, hb]
  · intro hok
    simp [fetchPrayerTimes, hok]
  · intro code text data hok hb hc
    simp [fetchPrayerTimes, hok, hb, hc]
  · intro hok hb
    simp [fetchPrayerTimes, hok, hb]
  · intro hok hb
    rcases hb with hb | ⟨text, hb⟩ <;> simp [fetchPrayerTimes, hok, hb]
  · intro s c text e
    exact transport_ne_application s c text (JsError.error.inj e)
  · intro tz now w city hcity
    simp only [refreshPrayerTimes, hcity]
    cases fetchPrayerTimes (.response status body) with
    | error e => rfl
    | ok timings =>
      simp only []
      generalize schedulePrayerAlarms tz timings now w.alarms = r
      obtain ⟨tbl, c⟩ := r
      cases c <;> rfl

/-- Three responses, one of each class. -/
theorem fetch_classifies_response_witness :
    fetchPrayerTimes
        (.response 200 (.value (.num 200) (.str "OK") (some (.obj exampleProps)))) =
      .ok (.obj exampleProps) ∧
    fetchPrayerTimes
        (.response 503 (.value (.num 200) (.str "OK") (some (.obj exampleProps)))) =
      .error (.error "API error: 503") ∧
    fetchPrayerTimes (.response 200 (.value (.num 400) (.str "Bad Request") none)) =
      .error (.error "API returned code 400: Bad Request") :=
  ⟨(fetch_classifies_response 200
      (.value (.num 200) (.str "OK") (some (.obj exampleProps)))).2.1 _ _ (by decide) rfl,
   (fetch_classifies_response 503
      (.value (.num 200) (.str "OK") (some (.obj exampleProps)))).2.2.1 (by decide),
   (fetch_classifies_response 200
      (.value (.num 400) (.str "Bad Request") none)).2.2.2.1 _ _ _ (by decide) rfl
      (by decide)⟩

/-- C5, as the claim states it, fails when the exception is raised while
scheduling: a response with HTTP status 200 and code 200 whose `data` has no
`timings` makes `schedulePrayerAlarms` throw a `TypeError` after it has
cleared the alarms.  The exception is caught, the store is as before, and the
alarm table is empty instead of holding the two prior alarms. -/
theorem failed_scheduling_clears_alarms :
    (refreshPrayerTimes utcZone 46800000 okWithoutTimings settledWorld).2 =
      .caught .typeError ∧
    (refreshPrayerTimes utcZone 46800000 okWithoutTimings settledWorld).1.store =
      settledWorld.store ∧
    (refreshPrayerTimes utcZone 46800000 okWithoutTimings settledWorld).1.alarms =
      [] ∧
    (refreshPrayerTimes utcZone 46800000 okWithoutTimings settledWorld).1.alarms ≠
      settledWorld.alarms := by
  decide

/-- C5, amended. When a refresh cycle ends in its `catch` clause, the store
(`timings` and `lastUpdated` included) is as before the call; if the failure
is a failure of the fetch (rejected request, status that is not a success,
embedded code other than 200) the alarm table is as before too; if the fetch
returned timings, the failure is an exception of `schedulePrayerAlarms` and the
alarm table is the one that call left, the prior alarms cleared. -/
theorem failed_refresh_keeps_store (tz : TimeZone) (now : Int) (net : FetchOutcome)
    (w : World) (e : JsError) (hfail : (refreshPrayerTimes tz now net w).2 = .caught e) :
    (refreshPrayerTimes tz now net w).1.store = w.store ∧
    (refreshPrayerTimes tz now net w).1.notifications = w.notifications ∧
    (∀ err, fetchPrayerTimes net = .error err →
      err = e ∧ (refreshPrayerTimes tz now net w).1.alarms = w.alarms) ∧
    (∀ timings, fetchPrayerTimes net = .ok timings →
      (schedulePrayerAlarms tz timings now w.alarms).2 = some e ∧
      (refreshPrayerTimes tz now net w).1.alarms =
        (schedulePrayerAlarms tz timings now w.alarms).1) := by
  unfold refreshPrayerTimes at hfail ⊢
  cases hc : truthyString w.store.city with
  | none => simp [hc] at hfail
  | some city =>
    simp only [hc] at hfail ⊢
    cases hf : fetchPrayerTimes net with
    | error err =>
      simp only [hf] at hfail ⊢
      have hee : err = e := by simpa using hfail
      refine ⟨trivial, trivial, ?_, ?_⟩
      · intro err2 h2
        cases h2
        exact ⟨hee, trivial⟩
      · intro t h2
        cases h2
    | ok timings =>
      simp only [hf] at hfail ⊢
      generalize hr : schedulePrayerAlarms tz timings now w.alarms = r at hfail ⊢
      obtain ⟨tbl, c⟩ := r
      cases c with
      | none => simp at hfail
      | some e2 =>
        have hee : e2 = e := by simpa using hfail
        subst hee
        refine ⟨rfl, rfl, ?_, ?_⟩
        · intro err h2
          cases h2
        · intro t h2
          cases h2
          rw [hr]
          exact ⟨rfl, rfl⟩

/-- A response with HTTP status 200 and embedded code 400: the cycle fails and
neither the store nor the alarm table changes. -/
theorem failed_refresh_keeps_store_witness :
    (refreshPrayerTimes utcZone 46800000 badRequest settledWorld).2 = .caught (.error "API returned code 400: Bad Request") ∧
    (refreshPrayerTimes utcZone 46800000 badRequest settledWorld).1.store = settledWorld.store ∧
    (refreshPrayerTimes utcZone 46800000 badRequest settledWorld).1.alarms = settledWorld.alarms :=
  have hfail : (refreshPrayerTimes utcZone 46800000 badRequest settledWorld).2 = .caught (.error "API returned code 400: Bad Request") := by decide
  have h := failed_refresh_keeps_store utcZone 46800000 badRequest settledWorld _ hfail
  ⟨hfail, h.1, (h.2.2.1 (.error "API returned code 400: Bad Request") rfl).2⟩

/-- C9. With no city stored (absent or the empty string), `refreshPrayerTimes`
returns at once: the alarm table, the store, the notifications and the list of
requests sent are all as before. -/
theorem refresh_without_city (tz : TimeZone) (now : Int) (net : FetchOutcome) (w : World)
    (hcity : w.store.city = none ∨ w.store.city = some "") :
    refreshPrayerTimes tz now net w = (w, .noCity) := by
  unfold refreshPrayerTimes
  rcases hcity with h | h <;> simp [h, truthyString]

/-- A world without a city keeps its stale alarms and sends no request, even
when the network would answer. -/
theorem refresh_without_city_witness :
    refreshPrayerTimes utcZone 46800000
        (.response 200 (.value (.num 200) (.str "OK") (some (.obj exampleProps))))
        { settledWorld with store := { settledWorld.store with city := none } } =
      ({ settledWorld with store := { settledWorld.store with city := none } }, .noCity) :=
  refresh_without_city utcZone 46800000 _ _ (Or.inl rfl)

/-- C10. The response to a `refreshNow` message and to a `citySelected`
message is `success: true` for every stored state and every outcome of the
fetch, whatever the refresh cycle did. -/
theorem message_response_always_success (tz : TimeZone) (now : Int) (net : FetchOutcome)
    (w : World) (city country : Option String) :
    (onMessage tz now net .refreshNow w).2 = some { success := true } ∧
    (onMessage tz now net (.citySelected city country) w).2 = some { success := true } ∧
    (onMessage tz now net .refreshNow w).1 = (refreshPrayerTimes tz now net w).1 ∧
    (onMessage tz now net (.citySelected city country) w).1 =
      (refreshPrayerTimes tz now net
        { w with store := storeSetCity city country w.store }).1 :=
  ⟨rfl, rfl, rfl, rfl⟩

theorem startsWithChars_append (p r : List Char) : startsWithChars p (p ++ r) = true := by
  induction p with
  | nil => rfl
  | cons c cs ih => simp [startsWithChars, ih]

theorem replaceFirstChars_append (c : Char) (cs r : List Char) :
    replaceFirstChars (c :: cs) [] ((c :: cs) ++ r) = r := by
  have h := startsWithChars_append (c :: cs) r
  simp only [List.cons_append] at h
  simp [replaceFirstChars, h]

theorem jsStartsWith_prayer (K : String) : jsStartsWith ("prayer_" ++ K) "prayer_" = true := by
  simp only [jsStartsWith, String.data_append]
  exact startsWithChars_append _ _

theorem jsReplace_prayer (K : String) : jsReplace ("prayer_" ++ K) "prayer_" "" = K := by
  simp only [jsReplace, String.data_append]
  have h := replaceFirstChars_append 'p' ['r', 'a', 'y', 'e', 'r', '_'] K.data
  exact String.ext h

theorem prayerNamesGet_own : ∀ e ∈ PRAYER_NAMES, prayerNamesGet e.1 = some e.2 := by
  decide

/-- C7. For every canonical key `K` with Arabic name `PRAYER_NAMES[K]`, the alarm
`prayer_K` makes the listener display exactly one more notification, whose
title and message end in that name, and leaves the alarm table, the store and
the list of requests as they are.  The alarm `dailyUpdate` makes the listener
run `refreshPrayerTimes` and displays no notification; with a city stored,
timings fetched and scheduled without exception, that run sends one request,
replaces the alarm table and persists `timings` and `lastUpdated`. -/
theorem onAlarm_routes (tz : TimeZone) (now : Int) (net : FetchOutcome) (w : World)
    (K arabic : String)
    (hK : (K, arabic) ∈ PRAYER_NAMES) :
    onAlarm tz now net ("prayer_" ++ K) w =
      { w with
          notifications := w.notifications ++
            [{ id := "notif_" ++ K ++ "_" ++ toString now
               title := "🕌 وقت صلاة " ++ arabic
               message := "حان الآن موعد صلاة " ++ arabic }] } ∧
    onAlarm tz now net "dailyUpdate" w = (refreshPrayerTimes tz now net w).1 ∧
    (onAlarm tz now net "dailyUpdate" w).notifications = w.notifications ∧
    (∀ city timings tbl, truthyString w.store.city = some city →
      fetchPrayerTimes net = .ok timings →
      schedulePrayerAlarms tz timings now w.alarms = (tbl, none) →
      onAlarm tz now net "dailyUpdate" w =
        { alarms := tbl
          store := { w.store with lastUpdated := some now, timings := some timings }
          notifications := w.notifications
          requests := w.requests ++ [(city, (truthyString w.store.country).getD "SA")] }) := by
  have hget := prayerNamesGet_own (K, arabic) hK
  simp only at hget
  refine ⟨?_, ?_, ?_, ?_⟩
  · simp only [onAlarm, prayerName_ne_sentinel K, if_false, jsStartsWith_prayer K, if_true,
      jsReplace_prayer K, showPrayerNotification, hget]
  · simp [onAlarm]
  · simp only [onAlarm, if_true]
    unfold refreshPrayerTimes
    cases truthyString w.store.city with
    | none => rfl
    | some city =>
      simp only []
      cases fetchPrayerTimes net with
      | error e => rfl
      | ok timings =>
        simp only []
        generalize schedulePrayerAlarms tz timings now w.alarms = r
        obtain ⟨tbl, c⟩ := r
        cases c <;> rfl
  · intro city timings tbl hcity hfetch hsched
    simp only [onAlarm, if_true]
    unfold refreshPrayerTimes
    simp only [hcity, hfetch, hsched]

/-- The alarm `prayer_Asr` displays the Arabic name of Asr. -/
theorem onAlarm_routes_witness :
    ("Asr", "العصر") ∈ PRAYER_NAMES ∧
    onAlarm utcZone 46800000 .rejected ("prayer_" ++ "Asr") settledWorld =
      { settledWorld with
          notifications :=
            [{ id := "notif_Asr_46800000"
               title := "🕌 وقت صلاة العصر"
               message := "حان الآن موعد صلاة العصر" }] } :=
  ⟨by decide, (onAlarm_routes utcZone 46800000 .rejected settledWorld "Asr" "العصر" (by decide)).1⟩

/-- The listener ignores every alarm name that is not `dailyUpdate` and either
does not start with `prayer_` or continues with a key that `PRAYER_NAMES` has
no truthy value for. -/
theorem onAlarm_ignores (tz : TimeZone) (now : Int) (net : FetchOutcome) (w : World)
    (name : String)
    (hs : name ≠ "dailyUpdate")
    (hk : jsStartsWith name "prayer_" = false ∨
      prayerNamesGet (jsReplace name "prayer_" "") = none) :
    onAlarm tz now net name w = w := by
  simp only [onAlarm, hs, if_false]
  rcases hk with hk | hk
  · simp [hk]
  · by_cases hp : jsStartsWith name "prayer_" = true
    · simp [hp, showPrayerNotification, hk]
    · simp [hp]

/-- C8 fails on the code for a name made of `prayer_` and a property that
`PRAYER_NAMES` inherits from `Object.prototype`: the name `prayer_constructor`
is neither the sentinel nor `prayer_K` for a canonical `K`, yet the listener
displays a notification, because `PRAYER_NAMES["constructor"]` is the function
`Object`, which is truthy.  The names `prayer_Sunrise` and `prayer_prayer_Asr`
are ignored. -/
theorem onAlarm_inherited_key_notifies :
    "prayer_constructor" ≠ "dailyUpdate" ∧
    (∀ K ∈ canonicalKeys, "prayer_constructor" ≠ "prayer_" ++ K) ∧
    (onAlarm utcZone 46800000 .rejected "prayer_constructor" settledWorld).notifications =
      [{ id := "notif_constructor_46800000"
         title := "🕌 وقت صلاة function Object() \x7b [native code] \x7d"
         message := "حان الآن موعد صلاة function Object() \x7b [native code] \x7d" }] ∧
    (onAlarm utcZone 46800000 .rejected "prayer_constructor" settledWorld).notifications ≠
      settledWorld.notifications ∧
    onAlarm utcZone 46800000 .rejected "prayer_Sunrise" settledWorld = settledWorld ∧
    onAlarm utcZone 46800000 .rejected "prayer_prayer_Asr" settledWorld = settledWorld := by
  decide

end PrayerNotifier
